import Mathlib

/-!
Verification development for the tgui repository (github.com/jkevinp/tgui),
a Telegram bot UI-widget toolkit.  This file gives a shallow embedding of
the questionnaire state machine (src/questionaire/questionaire.go,
src/questionaire/manager.go) and of the datatable pagination/filter
controller (src/datatable/datatable.go), and proves properties of those
embeddings.

Modelling conventions:
  - Go `int`/`int64` values (page numbers, chat ids, message ids) are
    modelled as `Int`; all values reachable in the modelled flows are tiny,
    so wrap-around of the machine integers is never observable.
  - Telegram network I/O (SendMessage, EditMessageText, DeleteMessage,
    AnswerCallbackQuery) is external; a send that the code uses to obtain a
    message id is modelled by an explicit `Option Int` parameter (`some id`
    for a successful send returning that message id, `none` for a failed
    send).  Sends whose result the code ignores are not represented.
  - Go maps (`map[string]interface{}`, `map[int64]*Questionaire`) are
    modelled as association lists with overwrite-on-insert semantics
    (`alSet` / `alGet` / `alDel`); a Go map never holds two bindings of the
    same key, which `alSet` starting from `[]` preserves.
-/

/-- Association-list lookup: first binding of the key, mirroring a Go map
read `v, ok := m[k]`. -/
def alGet {κ α : Type} [DecidableEq κ] (k : κ) : List (κ × α) → Option α
  | [] => none
  | (k2, v) :: rest => if k2 = k then some v else alGet k rest

/-- Association-list insert-or-overwrite, mirroring a Go map write
`m[k] = v`. -/
def alSet {κ α : Type} [DecidableEq κ] (k : κ) (v : α) : List (κ × α) → List (κ × α)
  | [] => [(k, v)]
  | (k2, v2) :: rest => if k2 = k then (k, v) :: rest else (k2, v2) :: alSet k v rest

/-- Association-list delete, mirroring Go `delete(m, k)`. -/
def alDel {κ α : Type} [DecidableEq κ] (k : κ) : List (κ × α) → List (κ × α)
  | [] => []
  | (k2, v2) :: rest => if k2 = k then alDel k rest else (k2, v2) :: alDel k rest

/-- Model of Go `strings.HasPrefix` (byte-wise on UTF-8; for the ASCII
callback strings used here, character-wise equality coincides). -/
def goHasPfx (p s : String) : Bool :=
  p.data.isPrefixOf s.data

/-- Model of Go `strings.TrimPrefix`: drop the leading occurrence of `p`
from `s` when present, otherwise return `s` unchanged. -/
def goTrimPfx (p s : String) : String :=
  if goHasPfx p s then String.mk (s.data.drop p.data.length) else s

/-- Numeric value of a list of decimal digit characters, most significant
first (helper for the `strconv.Atoi` model). -/
def digitsVal (l : List Char) : Int :=
  l.foldl (fun acc c => acc * 10 + ((c.toNat : Int) - ('0'.toNat : Int))) 0

/-- Model of Go `strconv.Atoi`: an optional sign followed by at least one
decimal digit, nothing else; any other string is an error (`none`).
(Go additionally errors when the value overflows `int`; every caller in
this repository immediately range-checks the result against a small list
length, so an overflowing value and a parse error are observably the
same: both leave the questionnaire unchanged.) -/
def goAtoi (s : String) : Option Int :=
  match s.data with
  | [] => none
  | c :: rest =>
    let signed : Int × List Char :=
      if c = '-' then (-1, rest) else if c = '+' then (1, rest) else (1, c :: rest)
    if signed.2 = [] then none
    else if signed.2.all Char.isDigit then some (signed.1 * digitsVal signed.2)
    else none

/-- Question input type, from src/questionaire/questionaire.go:41-50
(`QuestionFormatText = 0`, `QuestionFormatRadio = 1`,
`QuestionFormatCheck = 2`). -/
inductive QuestionFormat : Type
  | text
  | radio
  | check
deriving DecidableEq, Repr

/-- A single inline-keyboard button (src/button, fields used by the
embedded code: display text and callback data). The OnClick handler is
behaviour, not data, and is modelled by the dispatch functions below. -/
structure Button where
  Text : String
  CallbackData : String
deriving DecidableEq, Repr

/-- A value stored in the questionnaire answers map
(`map[string]interface{}`): a plain string for text/radio questions and
`InitialData` strings, or a string slice for checkbox questions. -/
inductive AVal : Type
  | str (s : String)
  | list (l : List String)
deriving DecidableEq, Repr

/-- One question of a questionnaire, from src/questionaire/questionaire.go:128-145.
The `validator` field is `nil` or a function returning an error message
(`Option String` models the Go `error`). -/
structure Question where
  Key : String
  Text : String
  Choices : List (List Button)
  ChoicesSelected : List String
  Answer : String
  validator : Option (String → Option String)
  QuestionFormat : QuestionFormat
  MsgID : Int

/-- `Question.Validate` (questionaire.go:362-371): run the validator if one
is set, otherwise accept. -/
def Question.Validate (c : Question) (ans : String) : Option String :=
  match c.validator with
  | some f => f ans
  | none => none

/-- Questionnaire session state, from src/questionaire/questionaire.go:75-94.
Fields that only route I/O (callbackID, manager pointer, context, the
`msgIds` cleanup list, handlers) carry no answer state and are omitted;
`msgIds` is only ever appended to and read for message deletion. -/
structure Questionaire where
  questions : List Question
  currentQuestionIndex : Nat
  chatID : Int
  InitialData : List (String × AVal)
  allowEditAnswers : Bool

/-- State effect of `Questionaire.Show` (questionaire.go:617-718): sends the
current question message and, when the send succeeds with message id
`mid`, records it via `curQuestion.SetMsgID(m.ID)` (line 711).  All other
work of Show (keyboard construction, manager re-registration of the same
session pointer, appending to `msgIds`) does not change the fields
modelled here. -/
def Questionaire.Show (q : Questionaire) (send : Option Int) : Questionaire :=
  if h : q.currentQuestionIndex < q.questions.length then
    match send with
    | some mid =>
      let cur := q.questions.get ⟨q.currentQuestionIndex, h⟩
      { q with questions := q.questions.set q.currentQuestionIndex ({ cur with MsgID := mid }) }
    | none => q
  else q

/-- The common tail of `Questionaire.Answer` (questionaire.go:853-857):
re-show when questions remain, then return whether the questionnaire is
complete (`q.currentQuestionIndex >= len(q.questions)`). -/
def answerFinish (q : Questionaire) (send : Option Int) : Questionaire × Bool :=
  let q2 := if q.currentQuestionIndex < q.questions.length then q.Show send else q
  (q2, decide (q2.questions.length ≤ q2.currentQuestionIndex))

/-- `Questionaire.Answer` (questionaire.go:814-858).  Branches, in source
order: a checkbox question receiving "cmd_done" advances without
validation; any other answer to a checkbox question is validated and,
when accepted, appended to `ChoicesSelected` without advancing; text and
radio questions validate, store the answer, and advance.  A validation
failure re-shows the question (with the error in the context) and
returns `false`.  `sendAnswerSummary` only edits/sends chat messages and
appends to `msgIds`, so it has no effect on the modelled state.  Go
panics when `currentQuestionIndex` is out of range (line 815 indexes the
slice); the out-of-range case is modelled as a no-op and excluded by
hypothesis in every theorem below. -/
def Questionaire.Answer (q : Questionaire) (ans : String) (send : Option Int) :
    Questionaire × Bool :=
  if h : q.currentQuestionIndex < q.questions.length then
    let cur := q.questions.get ⟨q.currentQuestionIndex, h⟩
    if cur.QuestionFormat = QuestionFormat.check ∧ ans = "cmd_done" then
      answerFinish { q with currentQuestionIndex := q.currentQuestionIndex + 1 } send
    else if cur.QuestionFormat = QuestionFormat.check ∧ ans ≠ "cmd_done" then
      match cur.Validate ans with
      | some _ => (q.Show send, false)
      | none =>
        let qs1 := q.questions.set q.currentQuestionIndex
          ({ cur with ChoicesSelected := cur.ChoicesSelected ++ [ans] })
        answerFinish { q with questions := qs1 } send
    else
      match cur.Validate ans with
      | some _ => (q.Show send, false)
      | none =>
        let qs1 := q.questions.set q.currentQuestionIndex ({ cur with Answer := ans })
        let q1 := { q with questions := qs1 }
        let q2 :=
          if cur.QuestionFormat ≠ QuestionFormat.check then
            { q1 with currentQuestionIndex := q1.currentQuestionIndex + 1 }
          else q1
        answerFinish q2 send
  else (q, false)

/-- The clearing loop of `onBack` (questionaire.go:758-769): every question
with index strictly greater than `step` has its `Answer`,
`ChoicesSelected` and `MsgID` reset; `i` is the index of the head of the
remaining list. -/
def clearAfterStep (step : Int) (i : Nat) : List Question → List Question
  | [] => []
  | c :: rest =>
    (if step < (i : Int) then { c with Answer := "", ChoicesSelected := [], MsgID := 0 }
     else c) :: clearAfterStep step (i + 1) rest

/-- `Questionaire.onBack` (questionaire.go:741-775): parse the step from the
callback data with `strconv.Atoi`; on a parse error or out-of-range step
return with no state change; otherwise clear every later question, set
the current index to the step, and re-show (the message deletions are
chat I/O only). -/
def Questionaire.onBack (q : Questionaire) (data : String) (send : Option Int) :
    Questionaire :=
  match goAtoi data with
  | none => q
  | some step =>
    if step < 0 ∨ (q.questions.length : Int) ≤ step then q
    else
      Questionaire.Show
        { q with questions := clearAfterStep step 0 q.questions,
                 currentQuestionIndex := step.toNat } send

/-- The per-question value stored by `GetAnswers` (questionaire.go:103-107):
the selected-choices slice for checkbox questions, the answer string
otherwise. -/
def questionAVal (c : Question) : AVal :=
  if c.QuestionFormat = QuestionFormat.check then AVal.list c.ChoicesSelected
  else AVal.str c.Answer

/-- The first loop of `GetAnswers` (questionaire.go:102-108): write each
question's value into the answers map in question order. -/
def questionsFold (qs : List Question) (acc : List (String × AVal)) :
    List (String × AVal) :=
  qs.foldl (fun a c => alSet c.Key (questionAVal c) a) acc

/-- The second loop of `GetAnswers` (questionaire.go:110-112): write every
`InitialData` binding into the answers map, overwriting duplicates. -/
def initialFold (l : List (String × AVal)) (acc : List (String × AVal)) :
    List (String × AVal) :=
  l.foldl (fun a kv => alSet kv.1 kv.2 a) acc

/-- `Questionaire.GetAnswers` (questionaire.go:100-115). -/
def Questionaire.GetAnswers (q : Questionaire) : List (String × AVal) :=
  initialFold q.InitialData (questionsFold q.questions [])

/-- Hex digit character (lowercase), as produced by encoding/json's
`\u00xx` escapes. -/
def hexDigitChar (n : Nat) : Char :=
  if n < 10 then Char.ofNat ('0'.toNat + n) else Char.ofNat ('a'.toNat + n - 10)

/-- Per-character escaping of Go `encoding/json.Marshal` for strings with
the default (HTML-escaping) encoder: quote and backslash are escaped,
newline/carriage-return/tab get short escapes, the other control
characters become `\u00xx`, and the HTML-sensitive characters and the
line separators U+2028/U+2029 become `\u....` escapes. -/
def jsonEscapeChar (c : Char) : String :=
  if c = '"' then "\\\""
  else if c = '\\' then "\\\\"
  else if c = '\n' then "\\n"
  else if c = '\r' then "\\r"
  else if c = '\t' then "\\t"
  else if c = '<' then "\\u003c"
  else if c = '>' then "\\u003e"
  else if c = '&' then "\\u0026"
  else if c.toNat < 32 then
    "\\u00" ++ String.mk [hexDigitChar (c.toNat / 16), hexDigitChar (c.toNat % 16)]
  else if c.toNat = 8232 then "\\u2028"
  else if c.toNat = 8233 then "\\u2029"
  else String.singleton c

/-- JSON string literal for `s`, per encoding/json. -/
def jsonQuote (s : String) : String :=
  "\"" ++ String.join (s.data.map jsonEscapeChar) ++ "\""

/-- JSON encoding of one answers-map value: a string, or a `[]string`
encoded as an array (the questionnaire always initialises the slice with
`make([]string, 0)`, so the nil-slice `null` encoding never occurs). -/
def jsonEncVal : AVal → String
  | AVal.str s => jsonQuote s
  | AVal.list l => "[" ++ String.intercalate "," (l.map jsonQuote) ++ "]"

/-- Insert an entry into a key-sorted entry list (strictly before the first
larger key; the answers map has pairwise distinct keys). -/
def insertEntry (p : String × AVal) : List (String × AVal) → List (String × AVal)
  | [] => [p]
  | x :: rest => if p.1 < x.1 then p :: x :: rest else x :: insertEntry p rest

/-- Sort map entries by key, as `encoding/json.Marshal` does for Go maps
(byte-wise key order, which for UTF-8 equals code-point order). -/
def sortEntries (l : List (String × AVal)) : List (String × AVal) :=
  l.foldr insertEntry []

/-- JSON object encoding of a (sorted) entry list. -/
def jsonEncodeObj (entries : List (String × AVal)) : String :=
  "\x7b" ++
    String.intercalate "," (entries.map (fun kv => jsonQuote kv.1 ++ ":" ++ jsonEncVal kv.2))
    ++ "\x7d"

/-- `GetResultByte` (questionaire.go:882-885): `json.Marshal` of the
`GetAnswers` map.  `Marshal` cannot fail on a map of strings and string
slices, so the error result is always nil and is not modelled. -/
def GetResultByte (q : Questionaire) : String :=
  jsonEncodeObj (sortEntries q.GetAnswers)

/-- Manager state (src/questionaire/manager.go:18-21): the conversations map
from chat id to active questionnaire.  The `sync.RWMutex` guards the map;
the lock discipline itself is modelled separately by the event traces
below. -/
structure Manager where
  conversations : List (Int × Questionaire)

/-- `Manager.Add` (manager.go:40-44). -/
def Manager.Add (m : Manager) (chatID : Int) (q : Questionaire) : Manager :=
  { conversations := alSet chatID q m.conversations }

/-- `Manager.Remove` (manager.go:49-53). -/
def Manager.Remove (m : Manager) (chatID : Int) : Manager :=
  { conversations := alDel chatID m.conversations }

/-- `Manager.Get` (manager.go:58-62). -/
def Manager.Get (m : Manager) (chatID : Int) : Option Questionaire :=
  alGet chatID m.conversations

/-- `Manager.Exists` (manager.go:67-72). -/
def Manager.Exists (m : Manager) (chatID : Int) : Bool :=
  (alGet chatID m.conversations).isSome

/-- The message fields of a `models.Update` that `HandleMessage` reads:
`update.Message.Chat.ID` and `update.Message.Text`; a nil
`update.Message` is `none`. -/
structure Msg where
  chatID : Int
  text : String

/-- `Manager.HandleMessage` (manager.go:87-117): return on a nil message;
look the chat up in the conversations map and return when absent;
otherwise feed the text to that chat's questionnaire via `Answer`.  When
`Answer` reports completion, `Done` runs the completion handler and
deletes chat messages (no effect on the modelled state) and
`q.manager.Remove(chatID)` deletes the session; sessions enter the map
through `Show`, which registers the questionnaire with its own manager,
so the stored session's manager is this manager.  When the questionnaire
is not yet complete the map still holds the same (mutated-in-place)
session, modelled by writing the updated state back. -/
def Manager.HandleMessage (m : Manager) (update : Option Msg) (send : Option Int) :
    Manager :=
  match update with
  | none => m
  | some msg =>
    match alGet msg.chatID m.conversations with
    | none => m
    | some q =>
      let r := q.Answer msg.text send
      if r.2 then { conversations := alDel msg.chatID m.conversations }
      else { conversations := alSet msg.chatID r.1 m.conversations }

/-- Atomic events of the manager's methods that are relevant to the lock
discipline around the `conversations` map: taking/releasing the write
lock (`mutex.Lock`/`Unlock`), taking/releasing the read lock
(`mutex.RLock`/`RUnlock`), and reading or writing the map itself. -/
inductive LockEvent : Type
  | lock
  | unlock
  | rlock
  | runlock
  | mapRead
  | mapWrite
deriving DecidableEq, Repr

/-- Event trace of `Manager.Add` (manager.go:40-44): Lock, map write,
deferred Unlock. -/
def addEvents : List LockEvent :=
  [LockEvent.lock, LockEvent.mapWrite, LockEvent.unlock]

/-- Event trace of `Manager.Remove` (manager.go:49-53): Lock, delete,
deferred Unlock. -/
def removeEvents : List LockEvent :=
  [LockEvent.lock, LockEvent.mapWrite, LockEvent.unlock]

/-- Event trace of `Manager.Get` (manager.go:58-62): RLock, map read,
deferred RUnlock. -/
def getEvents : List LockEvent :=
  [LockEvent.rlock, LockEvent.mapRead, LockEvent.runlock]

/-- Event trace of `Manager.Exists` (manager.go:67-72): RLock, map read,
deferred RUnlock. -/
def existsEvents : List LockEvent :=
  [LockEvent.rlock, LockEvent.mapRead, LockEvent.runlock]

/-- Event trace of `Manager.HandleMessage` (manager.go:87-117) for an update
whose message presence, session presence and completion outcome are
given: the session lookup `m.conversations[chatID]` at line 94 (no lock
taken), the `len(m.conversations)` read in the log statement at lines
99-100 (no lock), then on completion the locked delete inside
`q.manager.Remove` (line 112) followed by the `len(m.conversations)`
read in the log statement at lines 114-115 (no lock).  The `Answer` call
in between can re-register the session via `Show`, but that goes through
`q.manager.Add`, whose accesses are guarded (`addEvents`), so it cannot
turn the unguarded reads here into guarded ones and is omitted. -/
def handleMessageEvents (hasMessage inConversations isDone : Bool) : List LockEvent :=
  if ¬hasMessage then []
  else
    [LockEvent.mapRead] ++
      (if ¬inConversations then []
       else
         [LockEvent.mapRead] ++
           (if isDone then removeEvents ++ [LockEvent.mapRead] else []))

/-- Check a trace with the current write-lock and read-lock depths: every
map access must occur while some lock is held (a write additionally
needs the write lock). -/
def guardedFrom : Nat → Nat → List LockEvent → Bool
  | _, _, [] => true
  | w, r, e :: rest =>
    match e with
    | LockEvent.lock => guardedFrom (w + 1) r rest
    | LockEvent.unlock => guardedFrom (w - 1) r rest
    | LockEvent.rlock => guardedFrom w (r + 1) rest
    | LockEvent.runlock => guardedFrom w (r - 1) rest
    | LockEvent.mapRead => decide (0 < w + r) && guardedFrom w r rest
    | LockEvent.mapWrite => decide (0 < w) && guardedFrom w r rest

/-- A method's map accesses are all performed under the mutex. -/
def allAccessesGuarded (evs : List LockEvent) : Bool :=
  guardedFrom 0 0 evs

/-- DataTable state (src/datatable/datatable.go:51-77).  The
`currentFilter` map always holds `int64` values under "pageSize" and
"pageNum" (set by `Build` and coerced back to `int64` by `saveFilter`),
modelled as the two `Int` fields; its remaining non-nil entries (the
active filters, string values collected by the filter questionnaire) are
the `activeFilters` list.  The four `Ctrl*` buttons carry the callback
data set by `Build`. -/
structure DataTable where
  pfx : String
  pageSize : Int
  pageNum : Int
  pagesCount : Int
  filterKeys : List String
  activeFilters : List (String × String)
  ctrlBackData : String
  ctrlNextData : String
  ctrlCloseData : String
  ctrlFilterData : String
  replyMarkup : List (List Button)
deriving Repr, DecidableEq

/-- `DataTableBuilder.Build` (datatable.go:145-205): fails when the bot or
the data handler is missing or `itemsPerPage` is not positive; otherwise
constructs the table with `currentFilter["pageSize"] = itemsPerPage`,
`currentFilter["pageNum"] = 1`, the four control buttons ("back",
"next", "close", "filter"), and no data yet (`pagesCount` has its Go
zero value). -/
def buildDT (itemsPerPage : Int) (pfx : String) (filterKeys : List String)
    (hasBot hasDataHandler : Bool) : Option DataTable :=
  if ¬hasBot then none
  else if ¬hasDataHandler then none
  else if itemsPerPage ≤ 0 then none
  else
    some
      { pfx := pfx
        pageSize := itemsPerPage
        pageNum := 1
        pagesCount := 0
        filterKeys := filterKeys
        activeFilters := []
        ctrlBackData := "back"
        ctrlNextData := "next"
        ctrlCloseData := "close"
        ctrlFilterData := "filter"
        replyMarkup := [] }

/-- `DataTable.calcStartPage` (datatable.go:207-218). -/
def DataTable.calcStartPage (d : DataTable) : Int :=
  if d.pagesCount < 5 then 1
  else if d.pageNum < 3 then 1
  else if d.pagesCount - 2 ≤ d.pageNum then d.pagesCount - 4
  else d.pageNum - 2

/-- The page numbers drawn by the pagination loop of `rebuildControls`
(datatable.go:532-545): `for i := startPage; i < startPage+5 && i <= d.pagesCount; i++`.
Both loop conditions are antitone in `i`, so the stop-on-first-failure
loop visits exactly the filtered range below. -/
def DataTable.pageWindow (d : DataTable) : List Int :=
  (((List.range 5).map fun (j : Nat) => d.calcStartPage + (j : Int)).filter
    fun i => i ≤ d.pagesCount)

/-- `DataTable.handleNextPage` (datatable.go:376-380): increment pageNum and
re-show.  `Show` refreshes text/markup/pagesCount from the data handler
and `saveFilter` re-stores the already-`int64` page entries unchanged,
so `pageNum` is affected only by the increment. -/
def DataTable.handleNextPage (d : DataTable) : DataTable :=
  { d with pageNum := d.pageNum + 1 }

/-- `DataTable.handlePreviousPage` (datatable.go:383-390): decrement pageNum
and re-show only when `pageNum > 1`. -/
def DataTable.handlePreviousPage (d : DataTable) : DataTable :=
  if 1 < d.pageNum then { d with pageNum := d.pageNum - 1 } else d

/-- The two pagination commands of claim C10. -/
inductive NavCmd : Type
  | next
  | back
deriving DecidableEq, Repr

/-- Apply one pagination command. -/
def navStep (d : DataTable) : NavCmd → DataTable
  | NavCmd.next => d.handleNextPage
  | NavCmd.back => d.handlePreviousPage

/-- The actions `nagivateCallback` (datatable.go:339-373) can dispatch to;
`noAction` is the fall-through that invokes no handler. -/
inductive NavAction : Type
  | nextPage
  | backPage
  | showFilterMenu
  | nopAction
  | closeTable
  | cancelFilterMenu
  | startFilterQ (key : String)
  | setPage (pageStr : String)
  | removeFilterKey (key : String)
  | noAction
deriving DecidableEq, Repr

/-- The switch of `nagivateCallback` (datatable.go:345-371) on the command
remaining after the prefix is stripped: the six literal commands, then
the three parameterized command classes checked in source order, then
nothing. -/
def commandDispatch (cmd : String) : NavAction :=
  if cmd = "next" then NavAction.nextPage
  else if cmd = "back" then NavAction.backPage
  else if cmd = "filter" then NavAction.showFilterMenu
  else if cmd = "nop" then NavAction.nopAction
  else if cmd = "close" then NavAction.closeTable
  else if cmd = "filter_cancel" then NavAction.cancelFilterMenu
  else if goHasPfx "filter_" cmd then NavAction.startFilterQ (goTrimPfx "filter_" cmd)
  else if goHasPfx "setpage_" cmd then NavAction.setPage (goTrimPfx "setpage_" cmd)
  else if goHasPfx "remove_filter_" cmd then
    NavAction.removeFilterKey (goTrimPfx "remove_filter_" cmd)
  else NavAction.noAction

/-- `DataTable.nagivateCallback` (datatable.go:339-373):
`command := strings.TrimPrefix(string(callbackData), d.prefix)` followed
by the dispatch switch on `command`. -/
def DataTable.nagivateCallback (d : DataTable) (callbackData : String) : NavAction :=
  commandDispatch (goTrimPfx d.pfx callbackData)

/-- Callback data of the pagination-row buttons built by `rebuildControls`
(datatable.go:513-562), in source order: the jump-to-first button when
the window starts after page 1, the back arrow when not on page 1, the
numbered window buttons, and the next arrow plus the jump-to-last button
when not on the last page. Drawn only when `pagesCount > 1`. -/
def DataTable.pageButtonDatas (d : DataTable) : List String :=
  if 1 < d.pagesCount then
    (if 1 < d.calcStartPage then [d.pfx ++ "setpage_1"] else []) ++
      (if 1 < d.pageNum then [d.pfx ++ d.ctrlBackData] else []) ++
      (d.pageWindow.map fun i => d.pfx ++ "setpage_" ++ toString i) ++
      (if d.pageNum < d.pagesCount then
        [d.pfx ++ d.ctrlNextData] ++
          (if d.calcStartPage + 5 - 1 < d.pagesCount then
            [d.pfx ++ "setpage_" ++ toString d.pagesCount]
          else [])
      else [])
  else []

/-- Callback data of the filter-menu button (datatable.go:565-571), present
when filter keys are configured. -/
def DataTable.filterButtonDatas (d : DataTable) : List String :=
  if 0 < d.filterKeys.length then [d.pfx ++ d.ctrlFilterData] else []

/-- Callback data of the remove-filter buttons (datatable.go:574-588): one
per pair of an active (non-nil) filter entry and a matching configured
filter key. -/
def DataTable.removeFilterDatas (d : DataTable) : List String :=
  d.activeFilters.flatMap fun kv =>
    d.filterKeys.filterMap fun fk =>
      if fk = kv.1 then some (d.pfx ++ "remove_filter_" ++ kv.1) else none

/-- Callback data of the close button (datatable.go:591-595), always
present. -/
def DataTable.closeButtonDatas (d : DataTable) : List String :=
  [d.pfx ++ d.ctrlCloseData]

/-- All callback data `rebuildControls` attaches to the table's own control
buttons (navigation, page numbers, filter, remove-filter, close), in
source order.  The caller-supplied `replyMarkup` data rows (lines
497-509) are the caller's buttons, not table controls, and are outside
claim C5's scope (their data is likewise sent as `d.prefix+btn.CallbackData`). -/
def DataTable.controlCallbackDatas (d : DataTable) : List String :=
  d.pageButtonDatas ++ d.filterButtonDatas ++ d.removeFilterDatas ++ d.closeButtonDatas

/-- `NewBuilder` (questionaire.go:387-399): a fresh questionnaire for a chat
with no questions, index 0, and editing allowed. -/
def NewBuilder (chatID : Int) : Questionaire :=
  { questions := []
    currentQuestionIndex := 0
    chatID := chatID
    InitialData := []
    allowEditAnswers := true }

/-- `Questionaire.AddQuestion` (questionaire.go:475-496): append a text
question when `choices` is nil, a radio question otherwise. -/
def Questionaire.AddQuestion (q : Questionaire) (key text : String)
    (choices : Option (List (List Button)))
    (validateFunc : Option (String → Option String)) : Questionaire :=
  let question : Question :=
    match choices with
    | none =>
      { Key := key, Text := text, Choices := [], ChoicesSelected := [], Answer := ""
        validator := validateFunc, QuestionFormat := QuestionFormat.text, MsgID := 0 }
    | some cs =>
      { Key := key, Text := text, Choices := cs, ChoicesSelected := [], Answer := ""
        validator := validateFunc, QuestionFormat := QuestionFormat.radio, MsgID := 0 }
  { q with questions := q.questions ++ [question] }

/-- `Questionaire.AddMultipleAnswerQuestion` (questionaire.go:434-451):
append a checkbox question. -/
def Questionaire.AddMultipleAnswerQuestion (q : Questionaire) (key text : String)
    (choices : List (List Button))
    (validateFunc : Option (String → Option String)) : Questionaire :=
  let question : Question :=
    { Key := key, Text := text, Choices := choices, ChoicesSelected := [], Answer := ""
      validator := validateFunc, QuestionFormat := QuestionFormat.check, MsgID := 0 }
  { q with questions := q.questions ++ [question] }

/-- `Questionaire.SetInitialData` (questionaire.go:120-123). -/
def Questionaire.SetInitialData (q : Questionaire) (data : List (String × AVal)) :
    Questionaire :=
  { q with InitialData := data }

/-- Concrete questionnaire with two text questions (used by witnesses). -/
def qTwoText : Questionaire :=
  (NewBuilder 7 |>.AddQuestion "name" "Your name?" none none).AddQuestion
    "city" "Your city?" none none

/-- Concrete questionnaire with a single checkbox question whose validator
rejects every answer (used for claim C8). -/
def qCheckReject : Questionaire :=
  (NewBuilder 7).AddMultipleAnswerQuestion "tags" "Pick tags:"
    [[{ Text := "A", CallbackData := "a" }, { Text := "B", CallbackData := "b" }]]
    (some fun _ => some "rejected")

/-- Concrete questionnaire with one text question whose validator rejects
the empty string (used for claim C8's amended statement). -/
def qTextReject : Questionaire :=
  (NewBuilder 7).AddQuestion "name" "Your name?" none
    (some fun s => if s = "" then some "name must not be empty" else none)

/-- Concrete two-question questionnaire positioned at its checkbox question
with no selections yet (used for claim C1's witness). -/
def qAtCheck : Questionaire :=
  { questions :=
      [{ Key := "name", Text := "Your name?", Choices := [], ChoicesSelected := []
         Answer := "alice", validator := none, QuestionFormat := QuestionFormat.text
         MsgID := 5 },
       { Key := "tags", Text := "Pick tags:"
         Choices := [[{ Text := "A", CallbackData := "a" }]]
         ChoicesSelected := [], Answer := "", validator := none
         QuestionFormat := QuestionFormat.check, MsgID := 0 }]
    currentQuestionIndex := 1
    chatID := 7
    InitialData := []
    allowEditAnswers := true }

/-- Concrete two-question questionnaire in the state after both questions
were answered and shown (question 0 carries message id 5, question 1
message id 6), used for claim C7. -/
def qAnswered : Questionaire :=
  { questions :=
      [{ Key := "name", Text := "Your name?", Choices := [], ChoicesSelected := []
         Answer := "alice", validator := none, QuestionFormat := QuestionFormat.text
         MsgID := 5 },
       { Key := "tags", Text := "Pick tags:"
         Choices := [[{ Text := "A", CallbackData := "a" }]]
         ChoicesSelected := ["a"], Answer := "", validator := none
         QuestionFormat := QuestionFormat.check, MsgID := 6 }]
    currentQuestionIndex := 2
    chatID := 7
    InitialData := []
    allowEditAnswers := true }

/-- Concrete questionnaire whose single text question key collides with an
`InitialData` key (used for claim C3). -/
def qCollide : Questionaire :=
  { questions :=
      [{ Key := "k", Text := "K?", Choices := [], ChoicesSelected := []
         Answer := "a", validator := none, QuestionFormat := QuestionFormat.text
         MsgID := 0 }]
    currentQuestionIndex := 1
    chatID := 7
    InitialData := [("k", AVal.str "b")]
    allowEditAnswers := true }

/-- An answered text question (used by the C3/C9 witness questionnaires). -/
def qNameDone : Question :=
  { Key := "name", Text := "Your name?", Choices := [], ChoicesSelected := []
    Answer := "alice", validator := none, QuestionFormat := QuestionFormat.text
    MsgID := 0 }

/-- An answered checkbox question (used by the C3/C9 witness
questionnaires). -/
def qTagsDone : Question :=
  { Key := "tags", Text := "Pick tags:"
    Choices := [[{ Text := "A", CallbackData := "a" }]]
    ChoicesSelected := ["a", "b"], Answer := "", validator := none
    QuestionFormat := QuestionFormat.check, MsgID := 0 }

/-- Concrete answered questionnaire with a text question, a checkbox
question, and disjoint initial data (used for claims C3 and C9
witnesses). -/
def qMixed : Questionaire :=
  { questions := [qNameDone, qTagsDone]
    currentQuestionIndex := 2
    chatID := 7
    InitialData := [("src", AVal.str "ad"), ("uid", AVal.str "u1")]
    allowEditAnswers := true }

/-- `qMixed` with initial data that also overrides the question key
"name" (used for claim C9's witness). -/
def qOverride : Questionaire :=
  { qMixed with InitialData := [("name", AVal.str "override"), ("uid", AVal.str "u1")] }

/-- A one-text-question session that completes on any accepted answer
(used for claim C2's witness). -/
def qOneText : Questionaire :=
  (NewBuilder 7).AddQuestion "name" "Your name?" none none

/-- Concrete manager holding one active session for chat 7 (used for claim
C2's witness). -/
def mOne : Manager :=
  { conversations := [(7, qOneText)] }

/-- Concrete datatable on page 4 of 7 with one active filter (used for the
C4 and C5 witnesses). -/
def dSeven : DataTable :=
  { pfx := "dtABCDEFGHIJKLMN"
    pageSize := 5
    pageNum := 4
    pagesCount := 7
    filterKeys := ["name"]
    activeFilters := [("name", "john")]
    ctrlBackData := "back"
    ctrlNextData := "next"
    ctrlCloseData := "close"
    ctrlFilterData := "filter"
    replyMarkup := [] }

/-- The datatable produced by `buildDT 5 "dtABCDEFGHIJKLMN" [] true true`
(used for claim C10's witness). -/
def dFresh : DataTable :=
  { pfx := "dtABCDEFGHIJKLMN"
    pageSize := 5
    pageNum := 1
    pagesCount := 0
    filterKeys := []
    activeFilters := []
    ctrlBackData := "back"
    ctrlNextData := "next"
    ctrlCloseData := "close"
    ctrlFilterData := "filter"
    replyMarkup := [] }

/-- Observable non-message fields of a question (everything except the
tracked Telegram message id): used to state that an operation changes at
most `MsgID`. -/
def qFields (c : Question) : String × String × List String × QuestionFormat :=
  (c.Key, c.Answer, c.ChoicesSelected, c.QuestionFormat)

/-- Overwrite the question at the current index (statement helper for the
Answer computation lemmas; `Answer` mutates `curQuestion` through the
slice in place). -/
def Questionaire.withCur (q : Questionaire) (c : Question) : Questionaire :=
  { q with questions := q.questions.set q.currentQuestionIndex c }

/-- `Question.AddChoiceSelected` (questionaire.go:302-304). -/
def Question.AddChoiceSelected (c : Question) (ans : String) : Question :=
  { c with ChoicesSelected := c.ChoicesSelected ++ [ans] }

/-- `Question.SetAnswer` (questionaire.go:295-297). -/
def Question.SetAnswer (c : Question) (ans : String) : Question :=
  { c with Answer := ans }

theorem alGet_alSet_self {κ α : Type} [DecidableEq κ] (k : κ) (v : α)
    (l : List (κ × α)) : alGet k (alSet k v l) = some v := by
  induction l with
  | nil => simp [alGet, alSet]
  | cons x rest ih =>
    obtain ⟨k2, v2⟩ := x
    by_cases h : k2 = k
    · simp [alSet, h, alGet]
    · simp [alSet, h, alGet, ih]

theorem alGet_alSet_ne {κ α : Type} [DecidableEq κ] (k k2 : κ) (v : α)
    (l : List (κ × α)) (h : k2 ≠ k) : alGet k (alSet k2 v l) = alGet k l := by
  induction l with
  | nil => simp [alGet, alSet, h]
  | cons x rest ih =>
    obtain ⟨k3, v3⟩ := x
    by_cases h3 : k3 = k2
    · subst h3
      simp [alSet, alGet, h]
    · simp only [alSet, if_neg h3]
      by_cases h4 : k3 = k
      · simp [alGet, h4]
      · simp [alGet, h4, ih]

theorem alGet_alDel_self {κ α : Type} [DecidableEq κ] (k : κ)
    (l : List (κ × α)) : alGet k (alDel k l) = none := by
  induction l with
  | nil => simp [alGet, alDel]
  | cons x rest ih =>
    obtain ⟨k2, v2⟩ := x
    by_cases h : k2 = k
    · simp only [alDel, if_pos h]
      exact ih
    · simp only [alDel, if_neg h, alGet]
      exact ih

theorem alGet_alDel_ne {κ α : Type} [DecidableEq κ] (k k2 : κ)
    (l : List (κ × α)) (h : k2 ≠ k) : alGet k (alDel k2 l) = alGet k l := by
  induction l with
  | nil => simp [alGet, alDel]
  | cons x rest ih =>
    obtain ⟨k3, v3⟩ := x
    by_cases h3 : k3 = k2
    · have hk : ¬k3 = k := by
        rw [h3]
        exact h
      simp only [alDel, if_pos h3, alGet, if_neg hk]
      exact ih
    · by_cases h4 : k3 = k
      · simp only [alDel, if_neg h3, alGet, if_pos h4]
      · simp only [alDel, if_neg h3, alGet, if_neg h4]
        exact ih

theorem show_currentQuestionIndex (q : Questionaire) (send : Option Int) :
    (q.Show send).currentQuestionIndex = q.currentQuestionIndex := by
  unfold Questionaire.Show
  split
  · cases send <;> rfl
  · rfl

theorem show_length (q : Questionaire) (send : Option Int) :
    (q.Show send).questions.length = q.questions.length := by
  unfold Questionaire.Show
  split
  · cases send <;> simp
  · rfl

theorem show_getElem?_qFields (q : Questionaire) (send : Option Int) (i : Nat) :
    ((q.Show send).questions[i]?).map qFields = (q.questions[i]?).map qFields := by
  unfold Questionaire.Show
  split
  · cases send with
    | none => rfl
    | some mid =>
      rename_i h
      simp only []
      by_cases hi : q.currentQuestionIndex = i
      · subst hi
        rw [List.getElem?_set_self (by exact h)]
        rw [List.getElem?_eq_getElem h]
        rfl
      · rw [List.getElem?_set_ne hi]
  · rfl

theorem clearAfterStep_length (step : Int) (qs : List Question) :
    ∀ i : Nat, (clearAfterStep step i qs).length = qs.length := by
  induction qs with
  | nil => intro i; rfl
  | cons c rest ih =>
    intro i
    simp [clearAfterStep, ih (i + 1)]

theorem clearAfterStep_getElem? (step : Int) (qs : List Question) :
    ∀ i j : Nat,
      (clearAfterStep step i qs)[j]? =
        (qs[j]?).map fun c =>
          if step < ((i + j : Nat) : Int) then
            { c with Answer := "", ChoicesSelected := [], MsgID := 0 }
          else c := by
  induction qs with
  | nil => intro i j; rfl
  | cons c rest ih =>
    intro i j
    cases j with
    | zero => simp [clearAfterStep]
    | succ j2 =>
      simp only [clearAfterStep, List.getElem?_cons_succ]
      rw [ih (i + 1) j2]
      have harith : i + 1 + j2 = i + (j2 + 1) := by omega
      rw [harith]

theorem questionsFold_append (l1 l2 : List Question) (acc : List (String × AVal)) :
    questionsFold (l1 ++ l2) acc = questionsFold l2 (questionsFold l1 acc) := by
  simp [questionsFold, List.foldl_append]

theorem alGet_questionsFold_skip (k : String) (qs : List Question)
    (h : ∀ c ∈ qs, c.Key ≠ k) :
    ∀ acc, alGet k (questionsFold qs acc) = alGet k acc := by
  induction qs with
  | nil => intro acc; rfl
  | cons c rest ih =>
    intro acc
    have hc : c.Key ≠ k := h c (List.mem_cons_self c rest)
    have hrest : ∀ c2 ∈ rest, c2.Key ≠ k := fun c2 hc2 => h c2 (List.mem_cons_of_mem c hc2)
    show alGet k (questionsFold rest (alSet c.Key (questionAVal c) acc)) = alGet k acc
    rw [ih hrest, alGet_alSet_ne k c.Key _ _ hc]

theorem alGet_initialFold_skip (k : String) (l : List (String × AVal))
    (h : ∀ kv ∈ l, kv.1 ≠ k) :
    ∀ acc, alGet k (initialFold l acc) = alGet k acc := by
  induction l with
  | nil => intro acc; rfl
  | cons kv rest ih =>
    intro acc
    have hc : kv.1 ≠ k := h kv (List.mem_cons_self kv rest)
    have hrest : ∀ kv2 ∈ rest, kv2.1 ≠ k := fun kv2 h2 => h kv2 (List.mem_cons_of_mem kv h2)
    show alGet k (initialFold rest (alSet kv.1 kv.2 acc)) = alGet k acc
    rw [ih hrest, alGet_alSet_ne k kv.1 _ _ hc]

theorem alGet_initialFold_mem (k : String) (v : AVal) (l : List (String × AVal))
    (hnodup : (l.map Prod.fst).Nodup) (hmem : (k, v) ∈ l) :
    ∀ acc, alGet k (initialFold l acc) = some v := by
  induction l with
  | nil => cases hmem
  | cons kv rest ih =>
    intro acc
    rcases List.mem_cons.1 hmem with heq | hrest
    · have hk1 : kv.1 = k := by rw [← heq]
      have hv : kv.2 = v := by rw [← heq]
      have hnot : ∀ kv2 ∈ rest, kv2.1 ≠ k := by
        intro kv2 h2 hkk
        have hni : kv.1 ∉ rest.map Prod.fst := (List.nodup_cons.1 hnodup).1
        apply hni
        rw [hk1, ← hkk]
        exact List.mem_map_of_mem Prod.fst h2
      show alGet k (initialFold rest (alSet kv.1 kv.2 acc)) = some v
      rw [alGet_initialFold_skip k rest hnot, hk1, hv]
      exact alGet_alSet_self k v acc
    · have hnodup2 : (rest.map Prod.fst).Nodup := (List.nodup_cons.1 hnodup).2
      show alGet k (initialFold rest (alSet kv.1 kv.2 acc)) = some v
      exact ih hnodup2 hrest _

theorem goHasPfx_append (p r : String) : goHasPfx p (p ++ r) = true := by
  simp [goHasPfx, String.data_append, List.isPrefixOf_iff_prefix]

theorem goHasPfx_append2 (p a b : String) : goHasPfx p (p ++ a ++ b) = true := by
  rw [String.append_assoc]
  exact goHasPfx_append p (a ++ b)

theorem goTrimPfx_append (p r : String) : goTrimPfx p (p ++ r) = r := by
  simp only [goTrimPfx, goHasPfx_append p r, if_true]
  rw [String.data_append, List.drop_left]

theorem calcStartPage_bounds (d : DataTable) (h1 : 1 ≤ d.pagesCount)
    (h2 : 1 ≤ d.pageNum) (h3 : d.pageNum ≤ d.pagesCount) :
    1 ≤ d.calcStartPage ∧ d.calcStartPage ≤ d.pageNum ∧
      d.pageNum < d.calcStartPage + 5 := by
  unfold DataTable.calcStartPage
  split_ifs <;> omega

theorem mem_pageWindow_iff (d : DataTable) (i : Int) :
    i ∈ d.pageWindow ↔
      d.calcStartPage ≤ i ∧ i < d.calcStartPage + 5 ∧ i ≤ d.pagesCount := by
  constructor
  · intro hi
    obtain ⟨hmem, hdec⟩ := List.mem_filter.1 hi
    obtain ⟨j, hj, hf⟩ := List.mem_map.1 hmem
    rw [List.mem_range] at hj
    have hle : i ≤ d.pagesCount := of_decide_eq_true hdec
    refine ⟨?_, ?_, hle⟩ <;> omega
  · rintro ⟨hge, hlt, hle⟩
    apply List.mem_filter.2
    constructor
    · apply List.mem_map.2
      refine ⟨(i - d.calcStartPage).toNat, ?_, ?_⟩
      · rw [List.mem_range]
        omega
      · omega
    · exact decide_eq_true hle

/-- Claim C4: for a datatable with `pagesCount >= 1` and
`1 <= pageNum <= pagesCount`, `calcStartPage` returns 1 when
`pagesCount < 5` or `pageNum < 3`, returns `pagesCount - 4` when
`pagesCount >= 5` and `pageNum >= pagesCount - 2`, and returns
`pageNum - 2` otherwise; consequently the window of up to five
page-number buttons drawn by `rebuildControls` starts at a page `>= 1`,
never extends past `pagesCount`, and contains the current page. -/
theorem calcStartPage_window_spec (d : DataTable) (h1 : 1 ≤ d.pagesCount)
    (h2 : 1 ≤ d.pageNum) (h3 : d.pageNum ≤ d.pagesCount) :
    ((d.pagesCount < 5 ∨ d.pageNum < 3) → d.calcStartPage = 1) ∧
    (5 ≤ d.pagesCount ∧ d.pagesCount - 2 ≤ d.pageNum →
      d.calcStartPage = d.pagesCount - 4) ∧
    (5 ≤ d.pagesCount ∧ 3 ≤ d.pageNum ∧ d.pageNum < d.pagesCount - 2 →
      d.calcStartPage = d.pageNum - 2) ∧
    1 ≤ d.calcStartPage ∧
    d.pageWindow.length ≤ 5 ∧
    (∀ i ∈ d.pageWindow, 1 ≤ i ∧ i ≤ d.pagesCount) ∧
    d.pageNum ∈ d.pageWindow ∧
    (1 < d.pagesCount →
      (d.pfx ++ "setpage_" ++ toString d.pageNum) ∈ d.pageButtonDatas) := by
  obtain ⟨hb1, hb2, hb3⟩ := calcStartPage_bounds d h1 h2 h3
  have hwin : d.pageNum ∈ d.pageWindow :=
    (mem_pageWindow_iff d d.pageNum).2 ⟨hb2, hb3, h3⟩
  refine ⟨?_, ?_, ?_, hb1, ?_, ?_, hwin, ?_⟩
  · intro hcase
    unfold DataTable.calcStartPage
    split_ifs <;> omega
  · intro hcase
    unfold DataTable.calcStartPage
    split_ifs <;> omega
  · intro hcase
    unfold DataTable.calcStartPage
    split_ifs <;> omega
  · calc d.pageWindow.length
        ≤ ((List.range 5).map fun (j : Nat) => d.calcStartPage + (j : Int)).length :=
          List.length_filter_le _ _
      _ = 5 := by rw [List.length_map, List.length_range]
  · intro i hi
    rw [mem_pageWindow_iff] at hi
    omega
  · intro hgt
    unfold DataTable.pageButtonDatas
    rw [if_pos hgt]
    exact List.mem_append.2 (Or.inl (List.mem_append.2 (Or.inr
      (List.mem_map.2 ⟨d.pageNum, hwin, rfl⟩))))

/-- Witness for C4 at the concrete table `dSeven` (page 4 of 7): the window
starts at page 2 and contains the current page. -/
theorem calcStartPage_window_spec_witness :
    dSeven.calcStartPage = 2 ∧ (4 : Int) ∈ dSeven.pageWindow := by
  have h := calcStartPage_window_spec dSeven (by decide) (by decide) (by decide)
  refine ⟨?_, h.2.2.2.2.2.2.1⟩
  have h3 := h.2.2.1 (by decide)
  simpa using h3

theorem navStep_pageNum_ge (d : DataTable) (c : NavCmd) (h : 1 ≤ d.pageNum) :
    1 ≤ (navStep d c).pageNum := by
  cases c with
  | next =>
    show 1 ≤ d.pageNum + 1
    omega
  | back =>
    simp only [navStep, DataTable.handlePreviousPage]
    split_ifs with hgt
    · show 1 ≤ d.pageNum - 1
      omega
    · exact h

theorem navRun_pageNum_ge (cmds : List NavCmd) :
    ∀ d : DataTable, 1 ≤ d.pageNum → 1 ≤ (cmds.foldl navStep d).pageNum := by
  induction cmds with
  | nil => intro d h; exact h
  | cons c rest ih =>
    intro d h
    exact ih (navStep d c) (navStep_pageNum_ge d c h)

/-- Claim C10: a freshly built datatable starts with its pageNum filter
entry at 1, and every sequence of next-page/previous-page commands keeps
`pageNum >= 1`: `handlePreviousPage` decrements only when `pageNum > 1`
and `handleNextPage` increments by exactly 1. -/
theorem pageNum_invariant_spec (ips : Int) (pfx : String) (keys : List String)
    (d : DataTable) (hb : buildDT ips pfx keys true true = some d) :
    d.pageNum = 1 ∧
    (∀ c : NavCmd, (navStep d c).pageNum = d.pageNum + 1 ∨
      (navStep d c).pageNum = d.pageNum - 1 ∧ 1 < d.pageNum ∨
      (navStep d c).pageNum = d.pageNum ∧ ¬1 < d.pageNum) ∧
    ∀ cmds : List NavCmd, 1 ≤ (cmds.foldl navStep d).pageNum := by
  have hp : d.pageNum = 1 := by
    unfold buildDT at hb
    norm_num at hb
    exact hb.2 ▸ rfl
  refine ⟨hp, ?_, ?_⟩
  · intro c
    cases c with
    | next =>
      left
      simp [navStep, DataTable.handleNextPage]
    | back =>
      by_cases hgt : 1 < d.pageNum
      · right; left
        constructor
        · simp [navStep, DataTable.handlePreviousPage, hgt]
        · exact hgt
      · right; right
        constructor
        · simp [navStep, DataTable.handlePreviousPage, hgt]
        · exact hgt
  · intro cmds
    exact navRun_pageNum_ge cmds d (by rw [hp])

/-- Witness for C10 at a freshly built table: pageNum 1, and still at least
1 after pressing back, next, back, back. -/
theorem pageNum_invariant_spec_witness :
    dFresh.pageNum = 1 ∧
      1 ≤ (([NavCmd.back, NavCmd.next, NavCmd.back, NavCmd.back]).foldl
        navStep dFresh).pageNum := by
  have h := pageNum_invariant_spec 5 "dtABCDEFGHIJKLMN" [] dFresh (by decide)
  exact ⟨h.1, h.2.2 _⟩

/-- Claim C6 (lock discipline around the conversations map): `Add` and
`Remove` access the map only under the write lock and `Get` and
`Exists` only under the read lock, but `HandleMessage` performs
unguarded map reads (the session lookup at manager.go:94 and the
`len(m.conversations)` reads in its log statements), contradicting the
claim and the Manager's own documentation that the mutex protects all
concurrent access to the map. -/
theorem manager_lock_discipline_check :
    allAccessesGuarded addEvents = true ∧
    allAccessesGuarded removeEvents = true ∧
    allAccessesGuarded getEvents = true ∧
    allAccessesGuarded existsEvents = true ∧
    allAccessesGuarded (handleMessageEvents true true false) = false ∧
    allAccessesGuarded (handleMessageEvents true true true) = false := by
  decide

theorem pageButtonDatas_pfx (d : DataTable) :
    ∀ cb ∈ d.pageButtonDatas, goHasPfx d.pfx cb = true := by
  intro cb hcb
  simp only [DataTable.pageButtonDatas, List.mem_ite_nil_right, List.mem_append,
    List.mem_singleton, List.mem_map, List.singleton_append, List.mem_cons,
    List.not_mem_nil, or_false] at hcb
  obtain ⟨h1, hcb⟩ := hcb
  rcases hcb with ((⟨h2, rfl⟩ | ⟨h3, rfl⟩) | ⟨i, hi, rfl⟩) | ⟨h4, hcb⟩
  · exact goHasPfx_append d.pfx "setpage_1"
  · exact goHasPfx_append d.pfx d.ctrlBackData
  · exact goHasPfx_append2 d.pfx "setpage_" (toString i)
  · rcases hcb with rfl | ⟨h5, rfl⟩
    · exact goHasPfx_append d.pfx d.ctrlNextData
    · exact goHasPfx_append2 d.pfx "setpage_" (toString d.pagesCount)

theorem filterButtonDatas_pfx (d : DataTable) :
    ∀ cb ∈ d.filterButtonDatas, goHasPfx d.pfx cb = true := by
  intro cb hcb
  simp only [DataTable.filterButtonDatas, List.mem_ite_nil_right,
    List.mem_singleton] at hcb
  obtain ⟨h1, rfl⟩ := hcb
  exact goHasPfx_append d.pfx d.ctrlFilterData

theorem removeFilterDatas_pfx (d : DataTable) :
    ∀ cb ∈ d.removeFilterDatas, goHasPfx d.pfx cb = true := by
  intro cb hcb
  simp only [DataTable.removeFilterDatas, List.mem_flatMap, List.mem_filterMap] at hcb
  obtain ⟨kv, hkv, fk, hfk, hifeq⟩ := hcb
  by_cases hfe : fk = kv.1
  · rw [if_pos hfe] at hifeq
    obtain rfl := Option.some_inj.1 hifeq
    exact goHasPfx_append2 d.pfx "remove_filter_" kv.1
  · rw [if_neg hfe] at hifeq
    cases hifeq

theorem closeButtonDatas_pfx (d : DataTable) :
    ∀ cb ∈ d.closeButtonDatas, goHasPfx d.pfx cb = true := by
  intro cb hcb
  obtain rfl := List.mem_singleton.1 hcb
  exact goHasPfx_append d.pfx d.ctrlCloseData

/-- Claim C5: every callback-data string the datatable attaches to its
navigation, page-number, filter, remove-filter and close buttons begins
with the table's random prefix; `nagivateCallback` dispatches solely on
the remainder after stripping that prefix (the six literal commands and
the three parameterized command classes), and any other remainder
dispatches to no handler. -/
theorem callback_routing_spec (d : DataTable) :
    (∀ cb ∈ d.controlCallbackDatas, goHasPfx d.pfx cb = true) ∧
    (∀ data : String,
      d.nagivateCallback data = commandDispatch (goTrimPfx d.pfx data)) ∧
    (∀ rem : String,
      rem ≠ "back" → rem ≠ "next" → rem ≠ "filter" → rem ≠ "nop" → rem ≠ "close" →
      rem ≠ "filter_cancel" → goHasPfx "filter_" rem = false →
      goHasPfx "setpage_" rem = false → goHasPfx "remove_filter_" rem = false →
      commandDispatch rem = NavAction.noAction) := by
  refine ⟨?_, fun data => rfl, ?_⟩
  · intro cb hcb
    unfold DataTable.controlCallbackDatas at hcb
    rcases List.mem_append.1 hcb with hcb | hcb
    · rcases List.mem_append.1 hcb with hcb | hcb
      · rcases List.mem_append.1 hcb with hcb | hcb
        · exact pageButtonDatas_pfx d cb hcb
        · exact filterButtonDatas_pfx d cb hcb
      · exact removeFilterDatas_pfx d cb hcb
    · exact closeButtonDatas_pfx d cb hcb
  · intro rem h1 h2 h3 h4 h5 h6 h7 h8 h9
    simp [commandDispatch, h1, h2, h3, h4, h5, h6, h7, h8, h9]

/-- Witness for C5 at the concrete table `dSeven`: the close button's data
carries the prefix, and an unknown remainder dispatches nothing. -/
theorem callback_routing_spec_witness :
    goHasPfx dSeven.pfx ("dtABCDEFGHIJKLMN" ++ "close") = true ∧
      commandDispatch "bogus" = NavAction.noAction := by
  have h := callback_routing_spec dSeven
  constructor
  · exact h.1 ("dtABCDEFGHIJKLMN" ++ "close") (by decide)
  · exact h.2.2 "bogus" (by decide) (by decide) (by decide) (by decide) (by decide)
      (by decide) (by decide) (by decide) (by decide)

theorem answerFinish_fst_idx (q : Questionaire) (send : Option Int) :
    (answerFinish q send).1.currentQuestionIndex = q.currentQuestionIndex := by
  unfold answerFinish
  by_cases hc : q.currentQuestionIndex < q.questions.length
  · simp only [if_pos hc]
    exact show_currentQuestionIndex q send
  · simp only [if_neg hc]

theorem answerFinish_fst_len (q : Questionaire) (send : Option Int) :
    (answerFinish q send).1.questions.length = q.questions.length := by
  unfold answerFinish
  by_cases hc : q.currentQuestionIndex < q.questions.length
  · simp only [if_pos hc]
    exact show_length q send
  · simp only [if_neg hc]

theorem answerFinish_fst_qFields (q : Questionaire) (send : Option Int) (i : Nat) :
    (((answerFinish q send).1.questions[i]?).map qFields) =
      ((q.questions[i]?).map qFields) := by
  unfold answerFinish
  by_cases hc : q.currentQuestionIndex < q.questions.length
  · simp only [if_pos hc]
    exact show_getElem?_qFields q send i
  · simp only [if_neg hc]

theorem answerFinish_snd (q : Questionaire) (send : Option Int) :
    (answerFinish q send).2 =
      decide (q.questions.length ≤ q.currentQuestionIndex) := by
  unfold answerFinish
  by_cases hc : q.currentQuestionIndex < q.questions.length
  · simp only [if_pos hc, show_length, show_currentQuestionIndex]
  · simp only [if_neg hc]

theorem answer_check_done_eq (q : Questionaire) (send : Option Int)
    (h : q.currentQuestionIndex < q.questions.length)
    (hfmt : (q.questions.get ⟨q.currentQuestionIndex, h⟩).QuestionFormat =
      QuestionFormat.check) :
    q.Answer "cmd_done" send =
      answerFinish { q with currentQuestionIndex := q.currentQuestionIndex + 1 }
        send := by
  unfold Questionaire.Answer
  rw [dif_pos h]
  have hfmt2 : q.questions[q.currentQuestionIndex].QuestionFormat =
      QuestionFormat.check := hfmt
  simp [hfmt2]

theorem answer_check_select_ok_eq (q : Questionaire) (ans : String) (send : Option Int)
    (h : q.currentQuestionIndex < q.questions.length)
    (hfmt : (q.questions.get ⟨q.currentQuestionIndex, h⟩).QuestionFormat =
      QuestionFormat.check)
    (hne : ans ≠ "cmd_done")
    (hv : (q.questions.get ⟨q.currentQuestionIndex, h⟩).Validate ans = none) :
    q.Answer ans send =
      answerFinish
        (q.withCur ((q.questions.get ⟨q.currentQuestionIndex, h⟩).AddChoiceSelected ans))
        send := by
  unfold Questionaire.Answer
  rw [dif_pos h]
  rw [if_neg (fun hc => hne hc.2), if_pos ⟨hfmt, hne⟩, hv]
  rfl

theorem answer_reject_eq (q : Questionaire) (ans : String) (send : Option Int)
    (e : String)
    (h : q.currentQuestionIndex < q.questions.length)
    (hnd : ¬((q.questions.get ⟨q.currentQuestionIndex, h⟩).QuestionFormat =
      QuestionFormat.check ∧ ans = "cmd_done"))
    (hv : (q.questions.get ⟨q.currentQuestionIndex, h⟩).Validate ans = some e) :
    q.Answer ans send = (q.Show send, false) := by
  unfold Questionaire.Answer
  rw [dif_pos h]
  rw [if_neg hnd]
  by_cases hfmt : (q.questions.get ⟨q.currentQuestionIndex, h⟩).QuestionFormat =
      QuestionFormat.check
  · have hne : ans ≠ "cmd_done" := fun hcd => hnd ⟨hfmt, hcd⟩
    rw [if_pos ⟨hfmt, hne⟩, hv]
  · have : ¬((q.questions.get ⟨q.currentQuestionIndex, h⟩).QuestionFormat =
        QuestionFormat.check ∧ ans ≠ "cmd_done") := fun hc => hfmt hc.1
    rw [if_neg this, hv]

theorem answer_other_ok_eq (q : Questionaire) (ans : String) (send : Option Int)
    (h : q.currentQuestionIndex < q.questions.length)
    (hfmt : (q.questions.get ⟨q.currentQuestionIndex, h⟩).QuestionFormat ≠
      QuestionFormat.check)
    (hv : (q.questions.get ⟨q.currentQuestionIndex, h⟩).Validate ans = none) :
    q.Answer ans send =
      answerFinish
        { q.withCur ((q.questions.get ⟨q.currentQuestionIndex, h⟩).SetAnswer ans) with
            currentQuestionIndex := q.currentQuestionIndex + 1 } send := by
  unfold Questionaire.Answer
  rw [dif_pos h]
  rw [if_neg (fun hc => hfmt hc.1), if_neg (fun hc => hfmt hc.1), hv]
  simp only [if_pos hfmt]
  rfl

theorem qFields_map_proj {o1 o2 : Option Question}
    (h : o1.map qFields = o2.map qFields) :
    o1.map (fun c => (c.Answer, c.ChoicesSelected)) =
      o2.map (fun c => (c.Answer, c.ChoicesSelected)) := by
  cases o1 with
  | none =>
    cases o2 with
    | none => rfl
    | some b => simp at h
  | some a =>
    cases o2 with
    | none => simp at h
    | some b =>
      simp only [Option.map_some', Option.some_inj, qFields, Prod.mk.injEq] at h ⊢
      exact ⟨h.2.1, h.2.2.1⟩

theorem qFields_map_cs {o1 o2 : Option Question}
    (h : o1.map qFields = o2.map qFields) :
    o1.map (fun c => c.ChoicesSelected) = o2.map (fun c => c.ChoicesSelected) := by
  cases o1 with
  | none =>
    cases o2 with
    | none => rfl
    | some b => simp at h
  | some a =>
    cases o2 with
    | none => simp at h
    | some b =>
      simp only [Option.map_some', Option.some_inj, qFields, Prod.mk.injEq] at h ⊢
      exact h.2.2.1

theorem answerFinish_snd_iff (q : Questionaire) (send : Option Int) :
    ((answerFinish q send).2 = true ↔
      (answerFinish q send).1.questions.length ≤
        (answerFinish q send).1.currentQuestionIndex) := by
  rw [answerFinish_snd, answerFinish_fst_len, answerFinish_fst_idx,
    decide_eq_true_eq]

/-- Claim C1: for a questionnaire whose current index is in range and an
answer the current question's validator accepts, `Answer` advances the
index by exactly one for text and radio questions and for a checkbox
question receiving "cmd_done"; any other checkbox answer appends the
selection without advancing the index; and `Answer` returns true if and
only if, after processing, the current index is at least the number of
questions. -/
theorem answer_advance_spec (q : Questionaire) (cur : Question) (ans : String)
    (send : Option Int)
    (h : q.currentQuestionIndex < q.questions.length)
    (hc : q.questions.get ⟨q.currentQuestionIndex, h⟩ = cur)
    (hv : cur.Validate ans = none) :
    ((cur.QuestionFormat = QuestionFormat.text ∨
        cur.QuestionFormat = QuestionFormat.radio) →
      (q.Answer ans send).1.currentQuestionIndex = q.currentQuestionIndex + 1) ∧
    (cur.QuestionFormat = QuestionFormat.check ∧ ans = "cmd_done" →
      (q.Answer ans send).1.currentQuestionIndex = q.currentQuestionIndex + 1) ∧
    (cur.QuestionFormat = QuestionFormat.check ∧ ans ≠ "cmd_done" →
      (q.Answer ans send).1.currentQuestionIndex = q.currentQuestionIndex ∧
      ((q.Answer ans send).1.questions[q.currentQuestionIndex]?).map
          (fun c => c.ChoicesSelected) =
        some (cur.ChoicesSelected ++ [ans])) ∧
    ((q.Answer ans send).2 = true ↔
      (q.Answer ans send).1.questions.length ≤
        (q.Answer ans send).1.currentQuestionIndex) := by
  subst hc
  refine ⟨?_, ?_, ?_, ?_⟩
  · intro htr
    have hfmt : (q.questions.get ⟨q.currentQuestionIndex, h⟩).QuestionFormat ≠
        QuestionFormat.check := by
      rcases htr with ht | ht <;> rw [ht] <;> decide
    rw [answer_other_ok_eq q ans send h hfmt hv, answerFinish_fst_idx]
  · rintro ⟨hfmt, rfl⟩
    rw [answer_check_done_eq q send h hfmt, answerFinish_fst_idx]
  · rintro ⟨hfmt, hne⟩
    rw [answer_check_select_ok_eq q ans send h hfmt hne hv]
    constructor
    · rw [answerFinish_fst_idx]
      rfl
    · have htr := answerFinish_fst_qFields
        (q.withCur ((q.questions.get ⟨q.currentQuestionIndex, h⟩).AddChoiceSelected ans))
        send q.currentQuestionIndex
      rw [qFields_map_cs htr]
      show ((q.questions.set q.currentQuestionIndex _)[q.currentQuestionIndex]?).map
        (fun c => c.ChoicesSelected) = _
      rw [List.getElem?_set_self h]
      rfl
  · by_cases hfmt : (q.questions.get ⟨q.currentQuestionIndex, h⟩).QuestionFormat =
        QuestionFormat.check
    · by_cases hans : ans = "cmd_done"
      · subst hans
        rw [answer_check_done_eq q send h hfmt]
        exact answerFinish_snd_iff _ send
      · rw [answer_check_select_ok_eq q ans send h hfmt hans hv]
        exact answerFinish_snd_iff _ send
    · rw [answer_other_ok_eq q ans send h hfmt hv]
      exact answerFinish_snd_iff _ send

/-- Witness for C1: answering the first of two text questions advances the
index to 1, and answering a checkbox question with a selection appends
it without advancing. -/
theorem answer_advance_spec_witness :
    (qTwoText.Answer "alice" none).1.currentQuestionIndex = 1 ∧
      (qAtCheck.Answer "a" none).1.currentQuestionIndex = 1 ∧
      ((qAtCheck.Answer "a" none).1.questions[1]?).map
          (fun c => c.ChoicesSelected) = some ["a"] := by
  refine ⟨?_, ?_, ?_⟩
  · exact (answer_advance_spec qTwoText (qTwoText.questions.get ⟨0, by decide⟩)
      "alice" none (by decide) rfl rfl).1 (Or.inl rfl)
  · exact ((answer_advance_spec qAtCheck
      (qAtCheck.questions.get ⟨1, by decide⟩) "a" none (by decide) rfl
      rfl).2.2.1 ⟨rfl, by decide⟩).1
  · exact ((answer_advance_spec qAtCheck
      (qAtCheck.questions.get ⟨1, by decide⟩) "a" none (by decide) rfl
      rfl).2.2.1 ⟨rfl, by decide⟩).2

/-- Counterexample to claim C8 as stated: the current (checkbox) question's
validator rejects "cmd_done", yet `Answer` advances the index from 0 to
1 and returns true, because the "cmd_done" branch never consults the
validator. -/
theorem answer_reject_claim_counterexample :
    (qCheckReject.questions.get ⟨0, by decide⟩).Validate "cmd_done" =
      some "rejected" ∧
    qCheckReject.currentQuestionIndex = 0 ∧
    (qCheckReject.Answer "cmd_done" none).2 = true ∧
    (qCheckReject.Answer "cmd_done" none).1.currentQuestionIndex = 1 := by
  exact ⟨rfl, rfl, rfl, rfl⟩

/-- Claim C8 (amended): when the current question's validator rejects the
answer — excluding a checkbox question receiving "cmd_done", which
bypasses validation — `Answer` returns false and the current index and
every question's stored Answer and ChoicesSelected are unchanged. -/
theorem answer_reject_amended_spec (q : Questionaire) (ans : String)
    (send : Option Int) (e : String)
    (h : q.currentQuestionIndex < q.questions.length)
    (hv : (q.questions.get ⟨q.currentQuestionIndex, h⟩).Validate ans = some e)
    (hnd : ¬((q.questions.get ⟨q.currentQuestionIndex, h⟩).QuestionFormat =
      QuestionFormat.check ∧ ans = "cmd_done")) :
    (q.Answer ans send).2 = false ∧
    (q.Answer ans send).1.currentQuestionIndex = q.currentQuestionIndex ∧
    ∀ i : Nat,
      ((q.Answer ans send).1.questions[i]?).map
          (fun c => (c.Answer, c.ChoicesSelected)) =
        (q.questions[i]?).map (fun c => (c.Answer, c.ChoicesSelected)) := by
  rw [answer_reject_eq q ans send e h hnd hv]
  refine ⟨rfl, show_currentQuestionIndex q send, ?_⟩
  intro i
  exact qFields_map_proj (show_getElem?_qFields q send i)

/-- Witness for C8 (amended) at a text question rejecting the empty
answer. -/
theorem answer_reject_amended_spec_witness :
    (qTextReject.Answer "" none).2 = false ∧
      (qTextReject.Answer "" none).1.currentQuestionIndex = 0 := by
  have hw := answer_reject_amended_spec qTextReject "" none
    "name must not be empty" (by decide) rfl (by decide)
  exact ⟨hw.1, hw.2.1⟩

theorem show_none (q : Questionaire) : q.Show none = q := by
  unfold Questionaire.Show
  split <;> rfl

theorem show_getElem?_ne (q : Questionaire) (send : Option Int) (i : Nat)
    (hne : i ≠ q.currentQuestionIndex) :
    (q.Show send).questions[i]? = q.questions[i]? := by
  unfold Questionaire.Show
  split
  · cases send with
    | none => rfl
    | some mid => exact List.getElem?_set_ne (fun hh => hne hh.symm)
  · rfl

theorem show_getElem?_self_some (q : Questionaire) (mid : Int)
    (h : q.currentQuestionIndex < q.questions.length) :
    (q.Show (some mid)).questions[q.currentQuestionIndex]? =
      some ({ q.questions.get ⟨q.currentQuestionIndex, h⟩ with MsgID := mid }) := by
  unfold Questionaire.Show
  rw [dif_pos h]
  exact List.getElem?_set_self h

/-- Claim C7 (amended): when the callback data parses to a step `s` with
`0 <= s < len(questions)`, `onBack` clears the Answer, ChoicesSelected
and MsgID of every question after `s`, leaves every question before `s`
unchanged, leaves the Answer and ChoicesSelected of question `s`
unchanged — while question `s`'s MsgID is refreshed to the id of the
newly sent message when the re-display send succeeds — and sets the
current index to `s`; when the data is not a number or `s` is out of
range, nothing changes. -/
theorem onBack_amended_spec (q : Questionaire) (data : String) (send : Option Int) :
    (goAtoi data = none → q.onBack data send = q) ∧
    (∀ s : Int, goAtoi data = some s →
      (s < 0 ∨ (q.questions.length : Int) ≤ s) → q.onBack data send = q) ∧
    (∀ s : Int, goAtoi data = some s → 0 ≤ s → s < (q.questions.length : Int) →
      (q.onBack data send).currentQuestionIndex = s.toNat ∧
      (q.onBack data send).questions.length = q.questions.length ∧
      (∀ i : Nat, s.toNat < i →
        (q.onBack data send).questions[i]? =
          (q.questions[i]?).map fun c =>
            { c with Answer := "", ChoicesSelected := [], MsgID := 0 }) ∧
      (∀ i : Nat, i < s.toNat →
        (q.onBack data send).questions[i]? = q.questions[i]?) ∧
      (((q.onBack data send).questions[s.toNat]?).map
          (fun c => (c.Answer, c.ChoicesSelected)) =
        (q.questions[s.toNat]?).map fun c => (c.Answer, c.ChoicesSelected)) ∧
      (∀ mid : Int, send = some mid →
        ((q.onBack data send).questions[s.toNat]?).map (fun c => c.MsgID) =
          some mid) ∧
      (send = none → (q.onBack data send).questions[s.toNat]? =
        q.questions[s.toNat]?)) := by
  refine ⟨?_, ?_, ?_⟩
  · intro hp
    unfold Questionaire.onBack
    rw [hp]
  · intro s hp hrange
    unfold Questionaire.onBack
    rw [hp]
    exact if_pos hrange
  · intro s hp h0 hs
    have hred : q.onBack data send =
        Questionaire.Show
          { q with questions := clearAfterStep s 0 q.questions,
                   currentQuestionIndex := s.toNat } send := by
      unfold Questionaire.onBack
      rw [hp]
      exact if_neg (by omega)
    have hclen : (clearAfterStep s 0 q.questions).length = q.questions.length :=
      clearAfterStep_length s q.questions 0
    have hlen2 : s.toNat < (clearAfterStep s 0 q.questions).length := by
      rw [hclen]
      omega
    have hself : (clearAfterStep s 0 q.questions)[s.toNat]? =
        q.questions[s.toNat]? := by
      rw [clearAfterStep_getElem?]
      have hcond : ¬s < ((0 + s.toNat : Nat) : Int) := by omega
      simp only [if_neg hcond]
      cases q.questions[s.toNat]? <;> rfl
    refine ⟨?_, ?_, ?_, ?_, ?_, ?_, ?_⟩
    · rw [hred, show_currentQuestionIndex]
    · rw [hred, show_length]
      exact hclen
    · intro i hi
      rw [hred, show_getElem?_ne _ send i (show i ≠ s.toNat by omega)]
      show (clearAfterStep s 0 q.questions)[i]? = _
      rw [clearAfterStep_getElem?]
      have hcond : s < ((0 + i : Nat) : Int) := by omega
      simp only [if_pos hcond]
    · intro i hi
      rw [hred, show_getElem?_ne _ send i (show i ≠ s.toNat by omega)]
      show (clearAfterStep s 0 q.questions)[i]? = _
      rw [clearAfterStep_getElem?]
      have hcond : ¬s < ((0 + i : Nat) : Int) := by omega
      simp only [if_neg hcond]
      cases q.questions[i]? <;> rfl
    · rw [hred]
      have hqf := show_getElem?_qFields
        { q with questions := clearAfterStep s 0 q.questions,
                 currentQuestionIndex := s.toNat } send s.toNat
      have htr := qFields_map_proj hqf
      rw [htr]
      show ((clearAfterStep s 0 q.questions)[s.toNat]?).map _ = _
      rw [hself]
    · intro mid hsend
      subst hsend
      rw [hred]
      rw [show_getElem?_self_some _ mid hlen2]
      rfl
    · intro hsend
      subst hsend
      rw [hred, show_none]
      exact hself

/-- Counterexample to claim C7 as stated: going back to step 0 with a
successful re-display send changes the MsgID of question 0 (a question
with index <= s), from 5 to the newly sent message id 99. -/
theorem onBack_claim_counterexample :
    ((qAnswered.onBack "0" (some 99)).questions[0]?).map (fun c => c.MsgID) =
      some 99 ∧
    (qAnswered.questions[0]?).map (fun c => c.MsgID) = some 5 := by
  exact ⟨rfl, rfl⟩

/-- Witness for C7 (amended) at `qAnswered` with data "0": index returns to
0, question 1 is cleared, question 0 keeps its answer, and its MsgID
becomes the new message id. -/
theorem onBack_amended_spec_witness :
    (qAnswered.onBack "0" (some 99)).currentQuestionIndex = 0 ∧
      ((qAnswered.onBack "0" (some 99)).questions[1]?).map
        (fun c => (c.Answer, c.ChoicesSelected, c.MsgID)) =
        some ("", [], 0) ∧
      ((qAnswered.onBack "0" (some 99)).questions[0]?).map
        (fun c => (c.Answer, c.ChoicesSelected)) = some ("alice", []) ∧
      ((qAnswered.onBack "0" (some 99)).questions[0]?).map (fun c => c.MsgID) =
        some 99 := by
  have h := (onBack_amended_spec qAnswered "0" (some 99)).2.2 0 (by decide)
    (by decide) (by decide)
  refine ⟨h.1, ?_, ?_, h.2.2.2.2.2.1 99 rfl⟩
  · have h1 := h.2.2.1 1 (by decide)
    rw [h1]
    rfl
  · have h2 : ((qAnswered.onBack "0" (some 99)).questions[0]?).map
        (fun c => (c.Answer, c.ChoicesSelected)) =
        (qAnswered.questions[0]?).map (fun c => (c.Answer, c.ChoicesSelected)) :=
      h.2.2.2.2.1
    rw [h2]
    rfl

theorem handleMessage_absent (m : Manager) (msg : Msg) (send : Option Int)
    (h : alGet msg.chatID m.conversations = none) :
    m.HandleMessage (some msg) send = m := by
  show (match alGet msg.chatID m.conversations with
    | none => m
    | some q =>
      let r := q.Answer msg.text send
      if r.2 = true then ({ conversations := alDel msg.chatID m.conversations } : Manager)
      else { conversations := alSet msg.chatID r.1 m.conversations }) = m
  rw [h]

/-- Claim C2: `HandleMessage` leaves the manager unchanged for a nil message
or an unknown chat; otherwise it routes the text to that chat's
questionnaire via `Answer`, and on completion removes the chat's entry
(after `Done`, which does not touch the conversations map), so later
texts from that chat are no longer routed; entries of other chats are
never touched. -/
theorem handleMessage_routing_spec (m : Manager) (send : Option Int) :
    (Manager.HandleMessage m none send = m) ∧
    (∀ msg : Msg, alGet msg.chatID m.conversations = none →
      m.HandleMessage (some msg) send = m) ∧
    (∀ (msg : Msg) (q : Questionaire),
      alGet msg.chatID m.conversations = some q →
      ((q.Answer msg.text send).2 = true →
        alGet msg.chatID (m.HandleMessage (some msg) send).conversations = none ∧
        (∀ c : Int, c ≠ msg.chatID →
          alGet c (m.HandleMessage (some msg) send).conversations =
            alGet c m.conversations) ∧
        (∀ (msg2 : Msg) (send2 : Option Int), msg2.chatID = msg.chatID →
          (m.HandleMessage (some msg) send).HandleMessage (some msg2) send2 =
            m.HandleMessage (some msg) send)) ∧
      ((q.Answer msg.text send).2 = false →
        alGet msg.chatID (m.HandleMessage (some msg) send).conversations =
          some (q.Answer msg.text send).1 ∧
        (∀ c : Int, c ≠ msg.chatID →
          alGet c (m.HandleMessage (some msg) send).conversations =
            alGet c m.conversations))) := by
  refine ⟨rfl, fun msg h => handleMessage_absent m msg send h, ?_⟩
  intro msg q hsome
  have hred : m.HandleMessage (some msg) send =
      (if (q.Answer msg.text send).2 then
        ({ conversations := alDel msg.chatID m.conversations } : Manager)
      else
        { conversations := alSet msg.chatID (q.Answer msg.text send).1
            m.conversations }) := by
    show (match alGet msg.chatID m.conversations with
      | none => m
      | some q =>
        let r := q.Answer msg.text send
        if r.2 = true then ({ conversations := alDel msg.chatID m.conversations } : Manager)
        else { conversations := alSet msg.chatID r.1 m.conversations }) = _
    rw [hsome]
  constructor
  · intro hdone
    rw [hred, if_pos hdone]
    refine ⟨alGet_alDel_self _ _, ?_, ?_⟩
    · intro c hc
      exact alGet_alDel_ne c msg.chatID _ (fun hh => hc hh.symm)
    · intro msg2 send2 hcid
      apply handleMessage_absent
      show alGet msg2.chatID (alDel msg.chatID m.conversations) = none
      rw [hcid]
      exact alGet_alDel_self _ _
  · intro hnotdone
    rw [hred, if_neg (by rw [hnotdone]; exact Bool.false_ne_true)]
    refine ⟨alGet_alSet_self _ _ _, ?_⟩
    intro c hc
    exact alGet_alSet_ne c msg.chatID _ _ (fun hh => hc hh.symm)

/-- Witness for C2 at `mOne`: answering the single remaining question of
chat 7 completes the session, removes the chat's entry, and a subsequent
text from chat 7 no longer changes anything. -/
theorem handleMessage_routing_spec_witness :
    alGet 7 ((mOne.HandleMessage (some ⟨7, "bob"⟩) none).conversations) = none ∧
      (mOne.HandleMessage (some ⟨7, "bob"⟩) none).HandleMessage
          (some ⟨7, "hi"⟩) none =
        mOne.HandleMessage (some ⟨7, "bob"⟩) none := by
  have h := ((handleMessage_routing_spec mOne none).2.2 ⟨7, "bob"⟩ qOneText rfl).1
    (by rfl)
  exact ⟨h.1, h.2.2 ⟨7, "hi"⟩ none rfl⟩

/-- Counterexample to claim C3 as stated: `qCollide`'s only question is a
text question with key "k" and stored answer "a", yet `GetAnswers` maps
"k" to the `InitialData` value "b", not to the answer string "a". -/
theorem getAnswers_claim_counterexample :
    (qCollide.questions[0]?).map (fun c => (c.Key, c.QuestionFormat, c.Answer)) =
      some ("k", QuestionFormat.text, "a") ∧
    alGet "k" qCollide.GetAnswers = some (AVal.str "b") ∧
    AVal.str "b" ≠ AVal.str "a" := by
  refine ⟨rfl, rfl, by decide⟩

/-- Claim C3 (amended): `GetAnswers` maps the key of every checkbox question
to its slice of selected choices and the key of every text or radio
question to its answer string, provided the key does not recur as a
later question's key and is not a key of `InitialData`; every
`InitialData` key maps to its `InitialData` value; and `GetResultByte`
returns exactly the JSON serialization of this map. -/
theorem getAnswers_amended_spec (q : Questionaire) (pre post : List Question)
    (c : Question)
    (hsplit : q.questions = pre ++ c :: post)
    (hlast : ∀ c2 ∈ post, c2.Key ≠ c.Key)
    (hinit : ∀ kv ∈ q.InitialData, kv.1 ≠ c.Key) :
    ((c.QuestionFormat = QuestionFormat.check →
        alGet c.Key q.GetAnswers = some (AVal.list c.ChoicesSelected)) ∧
      (c.QuestionFormat ≠ QuestionFormat.check →
        alGet c.Key q.GetAnswers = some (AVal.str c.Answer))) ∧
    (∀ (k : String) (v : AVal), (q.InitialData.map Prod.fst).Nodup →
      (k, v) ∈ q.InitialData → alGet k q.GetAnswers = some v) ∧
    GetResultByte q = jsonEncodeObj (sortEntries q.GetAnswers) := by
  have hkey : alGet c.Key q.GetAnswers = some (questionAVal c) := by
    unfold Questionaire.GetAnswers
    rw [alGet_initialFold_skip c.Key q.InitialData hinit]
    rw [hsplit, questionsFold_append]
    show alGet c.Key
      (questionsFold post (alSet c.Key (questionAVal c) (questionsFold pre []))) = _
    rw [alGet_questionsFold_skip c.Key post hlast]
    exact alGet_alSet_self _ _ _
  refine ⟨⟨?_, ?_⟩, ?_, rfl⟩
  · intro hfmt
    rw [hkey]
    unfold questionAVal
    rw [if_pos hfmt]
  · intro hfmt
    rw [hkey]
    unfold questionAVal
    rw [if_neg hfmt]
  · intro k v hnodup hmem
    unfold Questionaire.GetAnswers
    exact alGet_initialFold_mem k v q.InitialData hnodup hmem _

/-- Witness for C3 (amended) at `qMixed`: the checkbox question's key maps
to its selections, an initial-data key maps to its value, and the
serialization equation holds. -/
theorem getAnswers_amended_spec_witness :
    alGet "tags" qMixed.GetAnswers = some (AVal.list ["a", "b"]) ∧
      alGet "uid" qMixed.GetAnswers = some (AVal.str "u1") ∧
      GetResultByte qMixed = jsonEncodeObj (sortEntries qMixed.GetAnswers) := by
  have h := getAnswers_amended_spec qMixed [qNameDone] [] qTagsDone rfl
    (by intro c2 hc2; exact absurd hc2 (List.not_mem_nil c2))
    (by decide)
  exact ⟨h.1.1 rfl, h.2.1 "uid" (AVal.str "u1") (by decide) (by decide), h.2.2⟩

/-- Claim C9: a key occurring both as a question key and as an `InitialData`
key is mapped by `GetAnswers` to the `InitialData` value: the initial
data loop runs after the question loop and overwrites. -/
theorem initialData_overrides_spec (q : Questionaire) (k : String) (v : AVal)
    (hnodup : (q.InitialData.map Prod.fst).Nodup)
    (hmem : (k, v) ∈ q.InitialData)
    (_hqk : k ∈ q.questions.map (fun c => c.Key)) :
    alGet k q.GetAnswers = some v := by
  unfold Questionaire.GetAnswers
  exact alGet_initialFold_mem k v q.InitialData hnodup hmem _

/-- Witness for C9 at `qOverride`: "name" is both a question key (answered
"alice") and an `InitialData` key, and the result maps it to the
initial-data value. -/
theorem initialData_overrides_spec_witness :
    alGet "name" qOverride.GetAnswers = some (AVal.str "override") := by
  exact initialData_overrides_spec qOverride "name" (AVal.str "override")
    (by decide) (by decide) (by decide)
